import Mathlib

/-!
Shallow embedding of the AccountabilityApp group ledger and goal status
calculator, translated from the repository sources:

* `src/supabase/full_setup.sql` — tables `groups`, `group_members`,
  `transactions`; RPC functions `log_failure(p_group_id, p_description)`
  and `settle_debt(p_transaction_id)`.
* `src/supabase/photo_proof_setup.sql` — RPC function
  `log_failure(p_group_id, p_description, p_proof_photo_url)`.
* `src/src/hooks/useAuth.tsx` — `getGoalStatus`.

Identifiers (uuids) are modelled as `Nat`, SQL `numeric` money amounts as `ℚ`,
timestamps as `Int` milliseconds since the epoch (the JavaScript `Date`
representation).  Row sets are modelled as lists of rows; an SQL `UPDATE`
statement is a map over the list that rewrites every row matched by its
`WHERE` clause, so an update whose `WHERE` clause matches no row is a no-op,
exactly as in SQL.
-/

namespace Accountability

inductive TxStatus where
  | pending
  | paid
  deriving DecidableEq

/-- A row of the `groups` table (the columns the ledger logic reads). -/
structure Group where
  id : Nat
  default_penalty_amount : ℚ
  deriving DecidableEq

/-- A row of the `group_members` table. -/
structure Membership where
  group_id : Nat
  user_id : Nat
  current_balance : ℚ
  failure_count : Nat
  deriving DecidableEq

/-- A row of the `transactions` table (timestamps omitted: no claim reads
`created_at`/`settled_at`). -/
structure Transaction where
  id : Nat
  group_id : Nat
  from_user_id : Nat
  to_user_id : Nat
  amount : ℚ
  status : TxStatus
  description : Option String
  proof_photo_url : Option String
  deriving DecidableEq

/-- The database state.  `next_id` models the id generator
(`uuid_generate_v4()`): freshly inserted transactions receive consecutive
ids starting at `next_id`. -/
structure DB where
  groups : List Group
  group_members : List Membership
  transactions : List Transaction
  next_id : Nat
  deriving DecidableEq

/-- The JSON object returned by a successful `log_failure`
(`'transactions_created'`, `'total_debt'`). -/
structure LogResult where
  transactions_created : Nat
  total_debt : ℚ
  deriving DecidableEq

/-- The JSON object returned by `settle_debt`. -/
structure SettleResult where
  success : Bool
  error : Option String
  deriving DecidableEq

/-- `SELECT default_penalty_amount FROM groups WHERE id = g`. -/
def groupPenalty (db : DB) (g : Nat) : Option ℚ :=
  (db.groups.find? (fun gr => gr.id == g)).map (fun gr => gr.default_penalty_amount)

/-- `UPDATE group_members SET current_balance = current_balance + a
WHERE group_id = g AND user_id = u`: every matched row is rewritten, a row
at a time. -/
def addBal : List Membership → Nat → Nat → ℚ → List Membership
  | [], _, _, _ => []
  | m :: t, g, u, a =>
    (if m.group_id == g && m.user_id == u then
      { m with current_balance := m.current_balance + a }
    else m) :: addBal t g u a

/-- `UPDATE group_members SET current_balance = current_balance - a
WHERE group_id = g AND user_id = u`. -/
def subBal : List Membership → Nat → Nat → ℚ → List Membership
  | [], _, _, _ => []
  | m :: t, g, u, a =>
    (if m.group_id == g && m.user_id == u then
      { m with current_balance := m.current_balance - a }
    else m) :: subBal t g u a

/-- `UPDATE group_members SET current_balance = current_balance + a
WHERE group_id = g AND user_id != u` (the bulk credit at the end of the
three-argument `log_failure`). -/
def addBalOthers : List Membership → Nat → Nat → ℚ → List Membership
  | [], _, _, _ => []
  | m :: t, g, u, a =>
    (if m.group_id == g && m.user_id != u then
      { m with current_balance := m.current_balance + a }
    else m) :: addBalOthers t g u a

/-- `UPDATE group_members SET failure_count = failure_count + 1
WHERE group_id = g AND user_id = u`. -/
def incFail : List Membership → Nat → Nat → List Membership
  | [], _, _ => []
  | m :: t, g, u =>
    (if m.group_id == g && m.user_id == u then
      { m with failure_count := m.failure_count + 1 }
    else m) :: incFail t g u

/-- `UPDATE group_members SET failure_count = failure_count + 1,
current_balance = current_balance - a WHERE group_id = g AND user_id = u`
(the combined actor update of the two-argument `log_failure`). -/
def incFailSubBal : List Membership → Nat → Nat → ℚ → List Membership
  | [], _, _, _ => []
  | m :: t, g, u, a =>
    (if m.group_id == g && m.user_id == u then
      { m with failure_count := m.failure_count + 1,
               current_balance := m.current_balance - a }
    else m) :: incFailSubBal t g u a

/-- The membership rows of group `g` other than user `u`:
`SELECT ... FROM group_members WHERE group_id = g AND user_id != u`. -/
def othersOf : List Membership → Nat → Nat → List Membership
  | [], _, _ => []
  | m :: t, g, u =>
    if m.group_id == g && m.user_id != u then m :: othersOf t g u
    else othersOf t g u

/-- One iteration of the loop in the three-argument `log_failure`
(photo_proof_setup.sql): `INSERT INTO transactions (...) VALUES
(p_group_id, v_user_id, v_member.user_id, v_penalty, COALESCE(...),
'pending', p_proof_photo_url)`, then `v_tx_count := v_tx_count + 1` and
`v_total_debt := v_total_debt + v_penalty`. -/
def photoLoopStep (g u : Nat) (P : ℚ) (desc : String) (pr : Option String)
    (st : DB × Nat × ℚ) (r : Membership) : DB × Nat × ℚ :=
  let db := st.1
  ({ db with
      transactions := db.transactions ++
        [{ id := db.next_id, group_id := g, from_user_id := u,
           to_user_id := r.user_id, amount := P, status := TxStatus.pending,
           description := some desc, proof_photo_url := pr }],
      next_id := db.next_id + 1 },
   st.2.1 + 1, st.2.2 + P)

/-- `log_failure(p_group_id uuid, p_description text, p_proof_photo_url text)`
from `photo_proof_setup.sql`.  The caller `u` stands for `auth.uid()`; the
`v_user_id IS NULL` (unauthenticated) guard is outside the model.  If the
group row is absent, `v_penalty` is NULL and the function raises
`'Group not found'`.  Otherwise it loops over the *other* membership rows
inserting one pending transaction per row, then increments the caller's
`failure_count`, debits the caller by the accumulated `v_total_debt`, and
credits every other membership row of the group by `v_penalty`. -/
def log_failure_photo (db : DB) (g u : Nat) (desc pr : Option String) :
    Except String (DB × LogResult) :=
  match groupPenalty db g with
  | none => Except.error "Group not found"
  | some P =>
    let R := othersOf db.group_members g u
    let st := R.foldl (photoLoopStep g u P (desc.getD "Logged failure") pr) (db, 0, 0)
    let db1 := st.1
    let db2 := { db1 with group_members := incFail db1.group_members g u }
    let db3 := { db2 with group_members := subBal db2.group_members g u st.2.2 }
    let db4 := { db3 with group_members := addBalOthers db3.group_members g u P }
    Except.ok (db4, { transactions_created := st.2.1, total_debt := st.2.2 })

/-- One iteration of the loop in the two-argument `log_failure`
(full_setup.sql): insert one pending transaction (status and
`proof_photo_url` take their column defaults), then credit that
recipient's balance. -/
def fullLoopStep (g u : Nat) (P : ℚ) (desc : Option String)
    (st : DB × Nat) (r : Membership) : DB × Nat :=
  let db := st.1
  let db1 := { db with
      transactions := db.transactions ++
        [({ id := db.next_id, group_id := g, from_user_id := u,
            to_user_id := r.user_id, amount := P, status := TxStatus.pending,
            description := desc, proof_photo_url := none } : Transaction)],
      next_id := db.next_id + 1 }
  ({ db1 with group_members := addBal db1.group_members g r.user_id P }, st.2 + 1)

/-- `log_failure(p_group_id uuid, p_description text)` from
`full_setup.sql`.  There is no group-existence or membership check: when the
group row is absent, `v_penalty` is SQL NULL, and the first statement that
actually matches a row (`current_balance - NULL`, or inserting a NULL
`amount`) violates a NOT NULL constraint and aborts the call; when the
group has no membership rows at all, nothing is matched and the call
returns success with zero transactions (`total_debt` is then JSON null,
modelled as 0; no claim reads that value).  When the group exists, the
actor update debits the caller by `v_penalty` **once** and the loop credits
each other membership row by `v_penalty`. -/
def log_failure_full (db : DB) (g u : Nat) (desc : Option String) :
    Except String (DB × LogResult) :=
  match groupPenalty db g with
  | none =>
    if db.group_members.any (fun m => m.group_id == g) then
      Except.error "null value violates not-null constraint"
    else
      Except.ok (db, { transactions_created := 0, total_debt := 0 })
  | some P =>
    let db1 := { db with group_members := incFailSubBal db.group_members g u P }
    let R := othersOf db1.group_members g u
    let st := R.foldl (fullLoopStep g u P desc) (db1, 0)
    Except.ok (st.1, { transactions_created := st.2, total_debt := P * st.2 })

/-- `settle_debt(p_transaction_id uuid)` from `full_setup.sql`.
`SELECT * INTO v_tx` without `STRICT`: when no row matches, `v_tx` is a
record of NULLs, the test `v_tx.status = 'paid'` is NULL (not true), the
three UPDATE statements match no rows (`id = p_transaction_id` finds
nothing, and the balance updates compare against NULL), and the function
returns `{'success': true}` — it does **not** report a missing transaction.
When the row exists and is `'paid'` it returns
`{'success': false, 'error': 'Already paid'}` without touching any row;
otherwise it marks the row paid, credits `from_user_id` by `amount` and
debits `to_user_id` by `amount` (each balance update is a no-op if the
corresponding membership row no longer exists). -/
def settle_debt (db : DB) (txid : Nat) : DB × SettleResult :=
  match db.transactions.find? (fun t => t.id == txid) with
  | none => (db, { success := true, error := none })
  | some tx =>
    if tx.status == TxStatus.paid then
      (db, { success := false, error := some "Already paid" })
    else
      let db1 := { db with
        transactions := db.transactions.map (fun (t : Transaction) =>
          if t.id == txid then { t with status := TxStatus.paid } else t) }
      let db2 := { db1 with group_members := addBal db1.group_members tx.group_id tx.from_user_id tx.amount }
      let db3 := { db2 with group_members := subBal db2.group_members tx.group_id tx.to_user_id tx.amount }
      (db3, { success := true, error := none })

/-- Sum of `current_balance` over the membership rows of group `g`
(the quantity of the closed-ledger invariant). -/
def memSum : List Membership → Nat → ℚ
  | [], _ => 0
  | m :: t, g => (if m.group_id == g then m.current_balance else 0) + memSum t g

/-- Sum of `current_balance` over the membership rows of `(g, u)`.  Under
the schema's `UNIQUE(group_id, user_id)` constraint there is at most one
such row, and this is that member's balance. -/
def balSum : List Membership → Nat → Nat → ℚ
  | [], _, _ => 0
  | m :: t, g, u =>
    (if m.group_id == g && m.user_id == u then m.current_balance else 0) + balSum t g u

/-- Sum of `failure_count` over the membership rows of `(g, u)`. -/
def fcSum : List Membership → Nat → Nat → Nat
  | [], _, _ => 0
  | m :: t, g, u =>
    (if m.group_id == g && m.user_id == u then m.failure_count else 0) + fcSum t g u

/-- Number of membership rows with key `(g, u)`.  `countKey l g u = 1` says
`u` is a current member of `g` with the single row the schema's
`UNIQUE(group_id, user_id)` constraint guarantees. -/
def countKey : List Membership → Nat → Nat → Nat
  | [], _, _ => 0
  | m :: t, g, u =>
    (if m.group_id == g && m.user_id == u then 1 else 0) + countKey t g u

/-- Number of membership rows of group `g` other than user `u`
(the rows enumerated by the distribution loops). -/
def countOthers : List Membership → Nat → Nat → Nat
  | [], _, _ => 0
  | m :: t, g, u =>
    (if m.group_id == g && m.user_id != u then 1 else 0) + countOthers t g u

/-- The transactions inserted by a distribution loop: one pending
transaction per recipient user id, with consecutive fresh ids. -/
def mkTxList (g u : Nat) (P : ℚ) (dsc pr : Option String) :
    Nat → List Nat → List Transaction
  | _, [] => []
  | s, v :: vs =>
    { id := s, group_id := g, from_user_id := u, to_user_id := v,
      amount := P, status := TxStatus.pending, description := dsc,
      proof_photo_url := pr } :: mkTxList g u P dsc pr (s + 1) vs

/-- The accumulated balance credits of the two-argument `log_failure`'s
loop: one `addBal` per recipient user id, in loop order. -/
def creditAll (l : List Membership) (g : Nat) (P : ℚ) : List Nat → List Membership
  | [] => l
  | v :: vs => creditAll (addBal l g v P) g P vs

/-- The projection of a transaction row to its ledger content
(everything except the generated id and the free-text columns). -/
def projTx (t : Transaction) : Nat × Nat × Nat × ℚ × TxStatus :=
  (t.group_id, t.from_user_id, t.to_user_id, t.amount, t.status)

/-! ### Goal status calculator (src/src/hooks/useAuth.tsx) -/

/-- One day in milliseconds (`1000 * 60 * 60 * 24`). -/
def dayMs : Int := 86400000

/-- A row of `goal_completions` (the columns `getGoalStatus` reads);
`completed_at` is in epoch milliseconds. -/
structure GoalCompletion where
  user_id : Nat
  completed_at : Int
  deriving DecidableEq

/-- A goal (the columns `getGoalStatus` reads). -/
structure Goal where
  id : Nat
  frequency_days : Nat
  deriving DecidableEq

/-- The derived status record returned by `getGoalStatus`. -/
structure GoalStatus where
  last_completion : Option Int
  next_deadline : Int
  is_overdue : Bool
  days_remaining : Int
  total_completions : Nat
  deriving DecidableEq

/-- `Math.ceil(a / b)` on integers (for `b > 0`), as used for
`days_remaining`.  `Int.fdiv` is floor division, and
`⌈a / b⌉ = -⌊(-a) / b⌋`. -/
def ceilDiv (a b : Int) : Int := -((-a).fdiv b)

/-- `getGoalStatus` from `src/src/hooks/useAuth.tsx`.  `completions` is the
list the hook fetched, ordered by `completed_at` descending, so
`userCompletions[0]` (modelled by `head?`) is the user's most recent
completion.  `setDate(getDate() + frequency_days)` is modelled as adding
`frequency_days * dayMs` milliseconds; the two `new Date()` calls of the
source are modelled as the single instant `now`. -/
def getGoalStatus (goal : Goal) (completions : List GoalCompletion)
    (uid : Nat) (now : Int) : GoalStatus :=
  let userCompletions := completions.filter (fun c => c.user_id == uid)
  match userCompletions.head? with
  | some last =>
    let nextDeadline := last.completed_at + (goal.frequency_days : Int) * dayMs
    { last_completion := some last.completed_at,
      next_deadline := nextDeadline,
      is_overdue := decide (nextDeadline < now),
      days_remaining := ceilDiv (nextDeadline - now) dayMs,
      total_completions := userCompletions.length }
  | none =>
    let nextDeadline := now + (goal.frequency_days : Int) * dayMs
    { last_completion := none,
      next_deadline := nextDeadline,
      is_overdue := decide (nextDeadline < now),
      days_remaining := ceilDiv (nextDeadline - now) dayMs,
      total_completions := userCompletions.length }

/-! ### Concrete states used by counterexamples and witnesses -/

/-- The spec's concrete scenario (§8): group `1` with
`default_penalty_amount = 2` and three members `1`, `2`, `3`, all with
balance `0`; no transactions yet. -/
def dbA : DB :=
  { groups := [{ id := 1, default_penalty_amount := 2 }],
    group_members := [⟨1, 1, 0, 0⟩, ⟨1, 2, 0, 0⟩, ⟨1, 3, 0, 0⟩],
    transactions := [],
    next_id := 10 }

/-- A zero-sum state of group `1` holding a pending transaction whose
`from_user_id` (`9`) has no membership row (the payer left the group at
zero balance while the transaction was still pending — `leaveGroup` only
checks the leaver's balance). -/
def dbLeft : DB :=
  { groups := [{ id := 1, default_penalty_amount := 5 }],
    group_members := [⟨1, 2, 5, 0⟩, ⟨1, 3, -5, 0⟩],
    transactions := [⟨1, 1, 9, 2, 3, TxStatus.pending, none, none⟩],
    next_id := 2 }

/-- Group `1` with penalty `5` and two members `2` and `3`; user `1` is not
a member. -/
def dbNonMember : DB :=
  { groups := [{ id := 1, default_penalty_amount := 5 }],
    group_members := [⟨1, 2, 0, 0⟩, ⟨1, 3, 0, 0⟩],
    transactions := [],
    next_id := 20 }

/-- Group `1` with a single already-paid transaction (id `5`). -/
def dbPaid : DB :=
  { groups := [{ id := 1, default_penalty_amount := 4 }],
    group_members := [⟨1, 2, 0, 0⟩, ⟨1, 3, 0, 0⟩],
    transactions := [⟨5, 1, 2, 3, 4, TxStatus.paid, none, none⟩],
    next_id := 6 }

/-- Group `1` with penalty `3` whose only member is user `1` (with some
prior balance and failure count). -/
def dbSolo : DB :=
  { groups := [{ id := 1, default_penalty_amount := 3 }],
    group_members := [⟨1, 1, 7, 2⟩],
    transactions := [],
    next_id := 4 }

/-- The state `log_failure` (photo_proof_setup.sql) produces from `dbSolo`:
`failure_count` incremented, everything else unchanged. -/
def dbSoloAfter : DB :=
  { groups := [{ id := 1, default_penalty_amount := 3 }],
    group_members := [⟨1, 1, 7, 3⟩],
    transactions := [],
    next_id := 4 }

/-- Group `1` with two members and one pending transaction (id `7`)
between them. -/
def dbPend : DB :=
  { groups := [{ id := 1, default_penalty_amount := 2 }],
    group_members := [⟨1, 1, -2, 1⟩, ⟨1, 2, 2, 0⟩],
    transactions := [⟨7, 1, 1, 2, 2, TxStatus.pending, none, none⟩],
    next_id := 8 }

/-- The state `log_failure` (photo_proof_setup.sql) produces from `dbA`
when member `1` logs a failure: two pending transactions (ids `10`, `11`)
and balances `-4, +2, +2`. -/
def dbAAfter : DB :=
  { groups := [{ id := 1, default_penalty_amount := 2 }],
    group_members := [⟨1, 1, -4, 1⟩, ⟨1, 2, 2, 0⟩, ⟨1, 3, 2, 0⟩],
    transactions :=
      [⟨10, 1, 1, 2, 2, TxStatus.pending, some "Logged failure", none⟩,
       ⟨11, 1, 1, 3, 2, TxStatus.pending, some "Logged failure", none⟩],
    next_id := 12 }

/-! ### Lemmas: balance sums under the row updates -/

theorem memSum_addBal (l : List Membership) (g u : Nat) (a : ℚ) :
    memSum (addBal l g u a) g = memSum l g + a * (countKey l g u : ℚ) := by
  induction l with
  | nil => simp [addBal, memSum, countKey]
  | cons m t ih =>
    by_cases hg : m.group_id = g
    · by_cases hu : m.user_id = u
      · simp [addBal, memSum, countKey, hg, hu, ih]
        ring
      · simp [addBal, memSum, countKey, hg, hu, ih]
        ring
    · simp [addBal, memSum, countKey, hg, ih]

theorem memSum_subBal (l : List Membership) (g u : Nat) (a : ℚ) :
    memSum (subBal l g u a) g = memSum l g - a * (countKey l g u : ℚ) := by
  induction l with
  | nil => simp [subBal, memSum, countKey]
  | cons m t ih =>
    by_cases hg : m.group_id = g
    · by_cases hu : m.user_id = u
      · simp [subBal, memSum, countKey, hg, hu, ih]
        ring
      · simp [subBal, memSum, countKey, hg, hu, ih]
        ring
    · simp [subBal, memSum, countKey, hg, ih]

theorem memSum_incFail (l : List Membership) (g u : Nat) (gq : Nat) :
    memSum (incFail l g u) gq = memSum l gq := by
  induction l with
  | nil => simp [incFail, memSum]
  | cons m t ih =>
    by_cases hg : m.group_id = g
    · by_cases hu : m.user_id = u
      · simp [incFail, memSum, hg, hu, ih]
      · simp [incFail, memSum, hg, hu, ih]
    · simp [incFail, memSum, hg, ih]

theorem memSum_addBalOthers (l : List Membership) (g u : Nat) (a : ℚ) :
    memSum (addBalOthers l g u a) g = memSum l g + a * (countOthers l g u : ℚ) := by
  induction l with
  | nil => simp [addBalOthers, memSum, countOthers]
  | cons m t ih =>
    by_cases hg : m.group_id = g
    · by_cases hu : m.user_id = u
      · simp [addBalOthers, memSum, countOthers, hg, hu, ih]
        ring
      · simp [addBalOthers, memSum, countOthers, hg, hu, ih]
        ring
    · simp [addBalOthers, memSum, countOthers, hg, ih]

theorem memSum_incFailSubBal (l : List Membership) (g u : Nat) (a : ℚ) :
    memSum (incFailSubBal l g u a) g = memSum l g - a * (countKey l g u : ℚ) := by
  induction l with
  | nil => simp [incFailSubBal, memSum, countKey]
  | cons m t ih =>
    by_cases hg : m.group_id = g
    · by_cases hu : m.user_id = u
      · simp [incFailSubBal, memSum, countKey, hg, hu, ih]
        ring
      · simp [incFailSubBal, memSum, countKey, hg, hu, ih]
        ring
    · simp [incFailSubBal, memSum, countKey, hg, ih]

/-! ### Lemmas: the row updates preserve membership keys -/

theorem countKey_addBal (l : List Membership) (g u : Nat) (a : ℚ) (g' u' : Nat) :
    countKey (addBal l g u a) g' u' = countKey l g' u' := by
  induction l with
  | nil => simp [addBal, countKey]
  | cons m t ih =>
    by_cases hg : m.group_id = g
    · by_cases hu : m.user_id = u
      · simp [addBal, countKey, hg, hu, ih]
      · simp [addBal, countKey, hg, hu, ih]
    · simp [addBal, countKey, hg, ih]

theorem countKey_subBal (l : List Membership) (g u : Nat) (a : ℚ) (g' u' : Nat) :
    countKey (subBal l g u a) g' u' = countKey l g' u' := by
  induction l with
  | nil => simp [subBal, countKey]
  | cons m t ih =>
    by_cases hg : m.group_id = g
    · by_cases hu : m.user_id = u
      · simp [subBal, countKey, hg, hu, ih]
      · simp [subBal, countKey, hg, hu, ih]
    · simp [subBal, countKey, hg, ih]

theorem countKey_addBalOthers (l : List Membership) (g u : Nat) (a : ℚ) (g' u' : Nat) :
    countKey (addBalOthers l g u a) g' u' = countKey l g' u' := by
  induction l with
  | nil => simp [addBalOthers, countKey]
  | cons m t ih =>
    by_cases hg : m.group_id = g
    · by_cases hu : m.user_id = u
      · simp [addBalOthers, countKey, hg, hu, ih]
      · simp [addBalOthers, countKey, hg, hu, ih]
    · simp [addBalOthers, countKey, hg, ih]

theorem countKey_incFail (l : List Membership) (g u : Nat) (g' u' : Nat) :
    countKey (incFail l g u) g' u' = countKey l g' u' := by
  induction l with
  | nil => simp [incFail, countKey]
  | cons m t ih =>
    by_cases hg : m.group_id = g
    · by_cases hu : m.user_id = u
      · simp [incFail, countKey, hg, hu, ih]
      · simp [incFail, countKey, hg, hu, ih]
    · simp [incFail, countKey, hg, ih]

theorem countKey_incFailSubBal (l : List Membership) (g u : Nat) (a : ℚ) (g' u' : Nat) :
    countKey (incFailSubBal l g u a) g' u' = countKey l g' u' := by
  induction l with
  | nil => simp [incFailSubBal, countKey]
  | cons m t ih =>
    by_cases hg : m.group_id = g
    · by_cases hu : m.user_id = u
      · simp [incFailSubBal, countKey, hg, hu, ih]
      · simp [incFailSubBal, countKey, hg, hu, ih]
    · simp [incFailSubBal, countKey, hg, ih]

/-! ### Lemmas: per-member balances under the row updates -/

theorem balSum_addBal_self (l : List Membership) (g u : Nat) (a : ℚ) :
    balSum (addBal l g u a) g u = balSum l g u + a * (countKey l g u : ℚ) := by
  induction l with
  | nil => simp [addBal, balSum, countKey]
  | cons m t ih =>
    by_cases hg : m.group_id = g
    · by_cases hu : m.user_id = u
      · simp [addBal, balSum, countKey, hg, hu, ih]
        ring
      · simp [addBal, balSum, countKey, hg, hu, ih]
    · simp [addBal, balSum, countKey, hg, ih]

theorem balSum_addBal_ne (l : List Membership) (g u v : Nat) (a : ℚ)
    (hne : v ≠ u) : balSum (addBal l g u a) g v = balSum l g v := by
  induction l with
  | nil => simp [addBal, balSum]
  | cons m t ih =>
    by_cases hg : m.group_id = g
    · by_cases hu : m.user_id = u
      · have hv : ¬ m.user_id = v := fun hv => hne (hv ▸ hu)
        have huv : ¬ (u = v) := fun h => hne h.symm
        simp [addBal, balSum, hg, hu, hv, huv, ih]
      · simp [addBal, balSum, hg, hu, ih]
    · simp [addBal, balSum, hg, ih]

theorem balSum_subBal_self (l : List Membership) (g u : Nat) (a : ℚ) :
    balSum (subBal l g u a) g u = balSum l g u - a * (countKey l g u : ℚ) := by
  induction l with
  | nil => simp [subBal, balSum, countKey]
  | cons m t ih =>
    by_cases hg : m.group_id = g
    · by_cases hu : m.user_id = u
      · simp [subBal, balSum, countKey, hg, hu, ih]
        ring
      · simp [subBal, balSum, countKey, hg, hu, ih]
    · simp [subBal, balSum, countKey, hg, ih]

theorem balSum_subBal_ne (l : List Membership) (g u v : Nat) (a : ℚ)
    (hne : v ≠ u) : balSum (subBal l g u a) g v = balSum l g v := by
  induction l with
  | nil => simp [subBal, balSum]
  | cons m t ih =>
    by_cases hg : m.group_id = g
    · by_cases hu : m.user_id = u
      · have hv : ¬ m.user_id = v := fun hv => hne (hv ▸ hu)
        have huv : ¬ (u = v) := fun h => hne h.symm
        simp [subBal, balSum, hg, hu, hv, huv, ih]
      · simp [subBal, balSum, hg, hu, ih]
    · simp [subBal, balSum, hg, ih]

theorem balSum_addBalOthers_self (l : List Membership) (g u : Nat) (a : ℚ) :
    balSum (addBalOthers l g u a) g u = balSum l g u := by
  induction l with
  | nil => simp [addBalOthers, balSum]
  | cons m t ih =>
    by_cases hg : m.group_id = g
    · by_cases hu : m.user_id = u
      · simp [addBalOthers, balSum, hg, hu, ih]
      · simp [addBalOthers, balSum, hg, hu, ih]
    · simp [addBalOthers, balSum, hg, ih]

theorem balSum_addBalOthers_ne (l : List Membership) (g u v : Nat) (a : ℚ)
    (hne : v ≠ u) :
    balSum (addBalOthers l g u a) g v = balSum l g v + a * (countKey l g v : ℚ) := by
  induction l with
  | nil => simp [addBalOthers, balSum, countKey]
  | cons m t ih =>
    by_cases hg : m.group_id = g
    · by_cases hv : m.user_id = v
      · have hu : m.user_id ≠ u := fun h => hne (hv ▸ h ▸ rfl)
        simp [addBalOthers, balSum, countKey, hg, hv, hu, hne, ih]
        ring
      · by_cases hu : m.user_id = u
        · have huv : ¬ (u = v) := fun h => hne h.symm
          simp [addBalOthers, balSum, countKey, hg, hv, hu, huv, ih]
        · simp [addBalOthers, balSum, countKey, hg, hv, hu, ih]
    · simp [addBalOthers, balSum, countKey, hg, ih]

theorem balSum_incFail (l : List Membership) (g u : Nat) (gq v : Nat) :
    balSum (incFail l g u) gq v = balSum l gq v := by
  induction l with
  | nil => simp [incFail, balSum]
  | cons m t ih =>
    by_cases hg : m.group_id = g
    · by_cases hu : m.user_id = u
      · simp [incFail, balSum, hg, hu, ih]
      · simp [incFail, balSum, hg, hu, ih]
    · simp [incFail, balSum, hg, ih]

theorem balSum_incFailSubBal_self (l : List Membership) (g u : Nat) (a : ℚ) :
    balSum (incFailSubBal l g u a) g u = balSum l g u - a * (countKey l g u : ℚ) := by
  induction l with
  | nil => simp [incFailSubBal, balSum, countKey]
  | cons m t ih =>
    by_cases hg : m.group_id = g
    · by_cases hu : m.user_id = u
      · simp [incFailSubBal, balSum, countKey, hg, hu, ih]
        ring
      · simp [incFailSubBal, balSum, countKey, hg, hu, ih]
    · simp [incFailSubBal, balSum, countKey, hg, ih]

theorem balSum_incFailSubBal_ne (l : List Membership) (g u v : Nat) (a : ℚ)
    (hne : v ≠ u) : balSum (incFailSubBal l g u a) g v = balSum l g v := by
  induction l with
  | nil => simp [incFailSubBal, balSum]
  | cons m t ih =>
    by_cases hg : m.group_id = g
    · by_cases hu : m.user_id = u
      · have hv : ¬ m.user_id = v := fun hv => hne (hv ▸ hu)
        have huv : ¬ (u = v) := fun h => hne h.symm
        simp [incFailSubBal, balSum, hg, hu, hv, huv, ih]
      · simp [incFailSubBal, balSum, hg, hu, ih]
    · simp [incFailSubBal, balSum, hg, ih]

theorem fcSum_incFail_self (l : List Membership) (g u : Nat) :
    fcSum (incFail l g u) g u = fcSum l g u + countKey l g u := by
  induction l with
  | nil => simp [incFail, fcSum, countKey]
  | cons m t ih =>
    by_cases hg : m.group_id = g
    · by_cases hu : m.user_id = u
      · simp [incFail, fcSum, countKey, hg, hu, ih]
        omega
      · simp [incFail, fcSum, countKey, hg, hu, ih]
    · simp [incFail, fcSum, countKey, hg, ih]

/-- `incFail` touches no balance column. -/
theorem balances_incFail (l : List Membership) (g u : Nat) :
    (incFail l g u).map (fun m => m.current_balance) =
      l.map (fun m => m.current_balance) := by
  induction l with
  | nil => simp [incFail]
  | cons m t ih =>
    by_cases hg : m.group_id = g
    · by_cases hu : m.user_id = u
      · simp [incFail, hg, hu, ih]
      · simp [incFail, hg, hu, ih]
    · simp [incFail, hg, ih]

/-- Subtracting `0` from a balance rewrites every matched row to itself. -/
theorem subBal_zero (l : List Membership) (g u : Nat) :
    subBal l g u 0 = l := by
  induction l with
  | nil => simp [subBal]
  | cons m t ih =>
    cases m with
    | mk mg mu mb mf => simp [subBal, ih]

/-- A bulk credit whose `WHERE` clause matches no row is a no-op. -/
theorem addBalOthers_of_no_match (l : List Membership) (g u : Nat) (a : ℚ)
    (h : ∀ m ∈ l, ¬(m.group_id = g ∧ m.user_id ≠ u)) :
    addBalOthers l g u a = l := by
  induction l with
  | nil => simp [addBalOthers]
  | cons m t ih =>
    have hm := h m (List.mem_cons_self m t)
    have ht : ∀ m' ∈ t, ¬(m'.group_id = g ∧ m'.user_id ≠ u) :=
      fun m' hm' => h m' (List.mem_cons_of_mem m hm')
    by_cases hg : m.group_id = g
    · have hu : m.user_id = u := by
        by_contra hu
        exact hm ⟨hg, hu⟩
      simp [addBalOthers, hg, hu, ih ht]
    · simp [addBalOthers, hg, ih ht]

/-! ### Lemmas: the recipient query `othersOf` -/

theorem length_othersOf (l : List Membership) (g u : Nat) :
    (othersOf l g u).length = countOthers l g u := by
  induction l with
  | nil => simp [othersOf, countOthers]
  | cons m t ih =>
    by_cases hg : m.group_id = g
    · by_cases hu : m.user_id = u
      · simp [othersOf, countOthers, hg, hu, ih]
      · simp [othersOf, countOthers, hg, hu, ih]
        omega
    · simp [othersOf, countOthers, hg, ih]

theorem mem_othersOf (l : List Membership) (g u : Nat) (m' : Membership)
    (h : m' ∈ othersOf l g u) : m'.group_id = g ∧ m'.user_id ≠ u := by
  induction l with
  | nil => simp [othersOf] at h
  | cons m t ih =>
    by_cases hg : m.group_id = g
    · by_cases hu : m.user_id = u
      · rw [show othersOf (m :: t) g u = othersOf t g u by simp [othersOf, hg, hu]] at h
        exact ih h
      · rw [show othersOf (m :: t) g u = m :: othersOf t g u by
              simp [othersOf, hg, hu]] at h
        rcases List.mem_cons.mp h with h | h
        · subst h
          exact ⟨hg, hu⟩
        · exact ih h
    · rw [show othersOf (m :: t) g u = othersOf t g u by simp [othersOf, hg]] at h
      exact ih h

theorem count_user_othersOf (l : List Membership) (g u w : Nat) (hw : w ≠ u) :
    ((othersOf l g u).map (fun m => m.user_id)).count w = countKey l g w := by
  have hw' : ¬ (u = w) := fun h => hw h.symm
  induction l with
  | nil => simp [othersOf, countKey]
  | cons m t ih =>
    by_cases hg : m.group_id = g
    · by_cases hmw : m.user_id = w
      · have hmu : m.user_id ≠ u := fun h => hw (hmw ▸ h ▸ rfl)
        simp [othersOf, countKey, hg, hmw, hmu, hw, hw', ih, List.count_cons]
        omega
      · by_cases hmu : m.user_id = u
        · simp [othersOf, countKey, hg, hmw, hmu, hw, hw', ih]
        · simp [othersOf, countKey, hg, hmw, hmu, hw, hw', ih, List.count_cons]
    · simp [othersOf, countKey, hg, ih]

/-- The actor update of the two-argument `log_failure` does not change
which rows the subsequent recipient query returns (only the actor row's
balance and failure count, and the query reads neither). -/
theorem othersOf_incFailSubBal (l : List Membership) (g u : Nat) (a : ℚ) :
    (othersOf (incFailSubBal l g u a) g u).map (fun m => m.user_id) =
      (othersOf l g u).map (fun m => m.user_id) := by
  induction l with
  | nil => simp [othersOf, incFailSubBal]
  | cons m t ih =>
    by_cases hg : m.group_id = g
    · by_cases hu : m.user_id = u
      · simp [othersOf, incFailSubBal, hg, hu, ih]
      · simp [othersOf, incFailSubBal, hg, hu, ih]
    · simp [othersOf, incFailSubBal, hg, ih]

theorem length_othersOf_incFailSubBal (l : List Membership) (g u : Nat) (a : ℚ) :
    (othersOf (incFailSubBal l g u a) g u).length = (othersOf l g u).length := by
  have h := congrArg List.length (othersOf_incFailSubBal l g u a)
  simpa using h

/-! ### Lemmas: the inserted transaction batch `mkTxList` -/

theorem mkTxList_length (g u : Nat) (P : ℚ) (dsc pr : Option String)
    (s : Nat) (vs : List Nat) :
    (mkTxList g u P dsc pr s vs).length = vs.length := by
  induction vs generalizing s with
  | nil => simp [mkTxList]
  | cons v vs ih => simp [mkTxList, ih]

theorem mem_mkTxList (g u : Nat) (P : ℚ) (dsc pr : Option String)
    (s : Nat) (vs : List Nat) (tx : Transaction)
    (h : tx ∈ mkTxList g u P dsc pr s vs) :
    tx.group_id = g ∧ tx.from_user_id = u ∧ tx.amount = P ∧
      tx.status = TxStatus.pending ∧ tx.to_user_id ∈ vs := by
  induction vs generalizing s with
  | nil => simp [mkTxList] at h
  | cons v vs ih =>
    simp only [mkTxList, List.mem_cons] at h
    rcases h with h | h
    · subst h
      simp
    · have := ih (s + 1) h
      exact ⟨this.1, this.2.1, this.2.2.1, this.2.2.2.1, List.mem_cons_of_mem v this.2.2.2.2⟩

/-- The ledger content of the inserted batch does not depend on the
starting id or the free-text columns. -/
theorem mkTxList_map_projTx (g u : Nat) (P : ℚ) (d1 p1 d2 p2 : Option String)
    (s1 s2 : Nat) (vs : List Nat) :
    (mkTxList g u P d1 p1 s1 vs).map projTx =
      (mkTxList g u P d2 p2 s2 vs).map projTx := by
  induction vs generalizing s1 s2 with
  | nil => simp [mkTxList]
  | cons v vs ih => simp [mkTxList, projTx, ih s1.succ s2.succ]

/-! ### Lemmas: the per-recipient credits `creditAll` -/

theorem countKey_creditAll (g : Nat) (P : ℚ) (g' u' : Nat)
    (vs : List Nat) (l : List Membership) :
    countKey (creditAll l g P vs) g' u' = countKey l g' u' := by
  induction vs generalizing l with
  | nil => simp [creditAll]
  | cons v vs ih => simp [creditAll, ih, countKey_addBal]

theorem balSum_creditAll (g : Nat) (P : ℚ) (w : Nat)
    (vs : List Nat) (l : List Membership) :
    balSum (creditAll l g P vs) g w =
      balSum l g w + P * (vs.count w : ℚ) * (countKey l g w : ℚ) := by
  induction vs generalizing l with
  | nil => simp [creditAll]
  | cons v vs ih =>
    by_cases hvw : v = w
    · subst hvw
      simp [creditAll, ih, countKey_addBal, balSum_addBal_self, List.count_cons]
      ring
    · have hwv : w ≠ v := fun h => hvw h.symm
      simp [creditAll, ih, countKey_addBal, balSum_addBal_ne _ _ _ _ _ hwv,
        List.count_cons, hvw]

/-! ### Lemmas: the distribution loops -/

theorem photoLoop_members (g u : Nat) (P : ℚ) (d : String) (pr : Option String)
    (R : List Membership) (db : DB) (c : Nat) (tt : ℚ) :
    ((R.foldl (photoLoopStep g u P d pr) (db, c, tt)).1).group_members =
      db.group_members := by
  induction R generalizing db c tt with
  | nil => simp
  | cons r rs ih => simp [photoLoopStep, ih]

theorem photoLoop_groups (g u : Nat) (P : ℚ) (d : String) (pr : Option String)
    (R : List Membership) (db : DB) (c : Nat) (tt : ℚ) :
    ((R.foldl (photoLoopStep g u P d pr) (db, c, tt)).1).groups = db.groups := by
  induction R generalizing db c tt with
  | nil => simp
  | cons r rs ih => simp [photoLoopStep, ih]

theorem photoLoop_next (g u : Nat) (P : ℚ) (d : String) (pr : Option String)
    (R : List Membership) (db : DB) (c : Nat) (tt : ℚ) :
    ((R.foldl (photoLoopStep g u P d pr) (db, c, tt)).1).next_id =
      db.next_id + R.length := by
  induction R generalizing db c tt with
  | nil => simp
  | cons r rs ih =>
    simp [photoLoopStep, ih]
    omega

theorem photoLoop_txs (g u : Nat) (P : ℚ) (d : String) (pr : Option String)
    (R : List Membership) (db : DB) (c : Nat) (tt : ℚ) :
    ((R.foldl (photoLoopStep g u P d pr) (db, c, tt)).1).transactions =
      db.transactions ++
        mkTxList g u P (some d) pr db.next_id (R.map (fun m => m.user_id)) := by
  induction R generalizing db c tt with
  | nil => simp [mkTxList]
  | cons r rs ih => simp [photoLoopStep, ih, mkTxList]

theorem photoLoop_cnt (g u : Nat) (P : ℚ) (d : String) (pr : Option String)
    (R : List Membership) (db : DB) (c : Nat) (tt : ℚ) :
    (R.foldl (photoLoopStep g u P d pr) (db, c, tt)).2.1 = c + R.length := by
  induction R generalizing db c tt with
  | nil => simp
  | cons r rs ih =>
    simp [photoLoopStep, ih]
    omega

theorem photoLoop_tot (g u : Nat) (P : ℚ) (d : String) (pr : Option String)
    (R : List Membership) (db : DB) (c : Nat) (tt : ℚ) :
    (R.foldl (photoLoopStep g u P d pr) (db, c, tt)).2.2 = tt + P * R.length := by
  induction R generalizing db c tt with
  | nil => simp
  | cons r rs ih =>
    simp [photoLoopStep, ih]
    ring

theorem fullLoop_members (g u : Nat) (P : ℚ) (d : Option String)
    (R : List Membership) (db : DB) (c : Nat) :
    ((R.foldl (fullLoopStep g u P d) (db, c)).1).group_members =
      creditAll db.group_members g P (R.map (fun m => m.user_id)) := by
  induction R generalizing db c with
  | nil => simp [creditAll]
  | cons r rs ih => simp [fullLoopStep, ih, creditAll]

theorem fullLoop_groups (g u : Nat) (P : ℚ) (d : Option String)
    (R : List Membership) (db : DB) (c : Nat) :
    ((R.foldl (fullLoopStep g u P d) (db, c)).1).groups = db.groups := by
  induction R generalizing db c with
  | nil => simp
  | cons r rs ih => simp [fullLoopStep, ih]

theorem fullLoop_txs (g u : Nat) (P : ℚ) (d : Option String)
    (R : List Membership) (db : DB) (c : Nat) :
    ((R.foldl (fullLoopStep g u P d) (db, c)).1).transactions =
      db.transactions ++
        mkTxList g u P d none db.next_id (R.map (fun m => m.user_id)) := by
  induction R generalizing db c with
  | nil => simp [mkTxList]
  | cons r rs ih => simp [fullLoopStep, ih, mkTxList]

theorem fullLoop_cnt (g u : Nat) (P : ℚ) (d : Option String)
    (R : List Membership) (db : DB) (c : Nat) :
    (R.foldl (fullLoopStep g u P d) (db, c)).2 = c + R.length := by
  induction R generalizing db c with
  | nil => simp
  | cons r rs ih =>
    simp [fullLoopStep, ih]
    omega

theorem fullLoop_next (g u : Nat) (P : ℚ) (d : Option String)
    (R : List Membership) (db : DB) (c : Nat) :
    ((R.foldl (fullLoopStep g u P d) (db, c)).1).next_id = db.next_id + R.length := by
  induction R generalizing db c with
  | nil => simp
  | cons r rs ih =>
    simp [fullLoopStep, ih]
    omega

/-- A database state is determined by its four fields. -/
theorem DB_eq_of_fields (x : DB) (a : List Group) (b : List Membership)
    (c : List Transaction) (d : Nat)
    (h1 : x.groups = a) (h2 : x.group_members = b)
    (h3 : x.transactions = c) (h4 : x.next_id = d) :
    x = { groups := a, group_members := b, transactions := c, next_id := d } := by
  cases x
  subst h1 h2 h3 h4
  rfl

/-! ### Characterization of the two `log_failure` RPCs and of `settle_debt` -/

/-- Closed form of the three-argument `log_failure` when the group exists:
one pending transaction per other membership row, then the three balance
updates in source order. -/
theorem log_failure_photo_eq (db : DB) (g u : Nat) (desc pr : Option String)
    (P : ℚ) (hP : groupPenalty db g = some P) :
    log_failure_photo db g u desc pr =
      Except.ok
        ({ groups := db.groups,
           group_members :=
             addBalOthers
               (subBal (incFail db.group_members g u) g u
                 (P * ((othersOf db.group_members g u).length : ℚ)))
               g u P,
           transactions := db.transactions ++
             mkTxList g u P (some (desc.getD "Logged failure")) pr db.next_id
               ((othersOf db.group_members g u).map (fun m => m.user_id)),
           next_id := db.next_id + (othersOf db.group_members g u).length },
         { transactions_created := (othersOf db.group_members g u).length,
           total_debt := P * ((othersOf db.group_members g u).length : ℚ) }) := by
  simp only [log_failure_photo, hP, photoLoop_members, photoLoop_groups,
    photoLoop_txs, photoLoop_next, photoLoop_cnt, photoLoop_tot, zero_add]

/-- Closed form of the two-argument `log_failure` when the group exists:
the actor is debited `P` once (not `P * n`), then the loop inserts one
pending transaction per other membership row and credits each row. -/
theorem log_failure_full_eq (db : DB) (g u : Nat) (desc : Option String)
    (P : ℚ) (hP : groupPenalty db g = some P) :
    log_failure_full db g u desc =
      Except.ok
        ({ groups := db.groups,
           group_members :=
             creditAll (incFailSubBal db.group_members g u P) g P
               ((othersOf (incFailSubBal db.group_members g u P) g u).map
                 (fun m => m.user_id)),
           transactions := db.transactions ++
             mkTxList g u P desc none db.next_id
               ((othersOf (incFailSubBal db.group_members g u P) g u).map
                 (fun m => m.user_id)),
           next_id := db.next_id +
             (othersOf (incFailSubBal db.group_members g u P) g u).length },
         { transactions_created :=
             (othersOf (incFailSubBal db.group_members g u P) g u).length,
           total_debt :=
             P * ((othersOf (incFailSubBal db.group_members g u P) g u).length : ℚ) }) := by
  simp only [log_failure_full, hP]
  refine congrArg Except.ok ?_
  refine Prod.ext ?_ ?_
  · exact DB_eq_of_fields _ _ _ _ _
      (fullLoop_groups g u P desc _ _ 0) (fullLoop_members g u P desc _ _ 0)
      (fullLoop_txs g u P desc _ _ 0) (fullLoop_next g u P desc _ _ 0)
  · rw [fullLoop_cnt]
    norm_num

/-- `settle_debt` on an id that matches no transaction row: no row is
touched and the function still reports success. -/
theorem settle_debt_not_found (db : DB) (txid : Nat)
    (h : ∀ t ∈ db.transactions, t.id ≠ txid) :
    settle_debt db txid = (db, { success := true, error := none }) := by
  have hf : db.transactions.find? (fun t => t.id == txid) = none := by
    rw [List.find?_eq_none]
    intro x hx
    simpa using h x hx
  simp [settle_debt, hf]

/-- `settle_debt` on an already-paid transaction: rejected, nothing
touched. -/
theorem settle_debt_paid (db : DB) (txid : Nat) (tx : Transaction)
    (hfind : db.transactions.find? (fun t => t.id == txid) = some tx)
    (hp : tx.status = TxStatus.paid) :
    settle_debt db txid = (db, { success := false, error := some "Already paid" }) := by
  simp [settle_debt, hfind, hp]

/-- `settle_debt` on a pending transaction: mark the row paid, credit the
payer, debit the payee. -/
theorem settle_debt_pending (db : DB) (txid : Nat) (tx : Transaction)
    (hfind : db.transactions.find? (fun t => t.id == txid) = some tx)
    (hp : tx.status = TxStatus.pending) :
    settle_debt db txid =
      ({ db with
          transactions := db.transactions.map (fun (t : Transaction) =>
            if t.id == txid then { t with status := TxStatus.paid } else t),
          group_members :=
            subBal (addBal db.group_members tx.group_id tx.from_user_id tx.amount)
              tx.group_id tx.to_user_id tx.amount },
       { success := true, error := none }) := by
  simp [settle_debt, hfind, hp]

/-- Marking one transaction paid leaves the find-by-id query pointing at
the same row, now with status `paid`. -/
theorem find?_map_paid (l : List Transaction) (txid : Nat) (tx : Transaction)
    (hfind : l.find? (fun t => t.id == txid) = some tx) :
    (l.map (fun (t : Transaction) =>
        if t.id == txid then { t with status := TxStatus.paid } else t)).find?
      (fun t => t.id == txid) = some { tx with status := TxStatus.paid } := by
  rw [List.find?_map]
  have hpred : ((fun (t : Transaction) => t.id == txid) ∘
      (fun (t : Transaction) =>
        if t.id == txid then { t with status := TxStatus.paid } else t)) =
      (fun (t : Transaction) => t.id == txid) := by
    funext t
    by_cases h : t.id = txid
    · simp [h]
    · simp [h]
  rw [hpred, hfind]
  have htx : tx.id = txid := by
    have := List.find?_some hfind
    simpa using this
  simp [htx]

/-! ### Lemmas: integer ceiling division -/

theorem ceilDiv_mul_dayMs (k : Int) : ceilDiv (k * dayMs) dayMs = k := by
  unfold ceilDiv dayMs
  rw [show -(k * (86400000 : Int)) = (-k) * 86400000 by ring]
  rw [Int.mul_fdiv_cancel _ (by norm_num)]
  simp

/-- `ceilDiv a dayMs` is the mathematical ceiling of `a / dayMs`
(`Math.ceil` of the exact rational quotient). -/
theorem ceilDiv_eq_ceil (a : Int) :
    ceilDiv a dayMs = ⌈(a : ℚ) / ((dayMs : Int) : ℚ)⌉ := by
  have h2 : (a : ℚ) / ((dayMs : Int) : ℚ) =
      -((((-a : Int)) : ℚ) / (((86400000 : Nat)) : ℚ)) := by
    have h1 : ((dayMs : Int) : ℚ) = (((86400000 : Nat)) : ℚ) := by
      norm_num [dayMs]
    rw [h1]
    push_cast
    ring
  rw [h2, Int.ceil_neg, Rat.floor_intCast_div_natCast]
  unfold ceilDiv dayMs
  rw [Int.fdiv_eq_ediv _ (by norm_num)]
  norm_num

theorem countOthers_incFail (l : List Membership) (g u : Nat) (g' u' : Nat) :
    countOthers (incFail l g u) g' u' = countOthers l g' u' := by
  induction l with
  | nil => simp [incFail, countOthers]
  | cons m t ih =>
    by_cases hg : m.group_id = g
    · by_cases hu : m.user_id = u
      · simp [incFail, countOthers, hg, hu, ih]
      · simp [incFail, countOthers, hg, hu, ih]
    · simp [incFail, countOthers, hg, ih]

theorem countOthers_subBal (l : List Membership) (g u : Nat) (a : ℚ) (g' u' : Nat) :
    countOthers (subBal l g u a) g' u' = countOthers l g' u' := by
  induction l with
  | nil => simp [subBal, countOthers]
  | cons m t ih =>
    by_cases hg : m.group_id = g
    · by_cases hu : m.user_id = u
      · simp [subBal, countOthers, hg, hu, ih]
      · simp [subBal, countOthers, hg, hu, ih]
    · simp [subBal, countOthers, hg, ih]

/-- If the recipient query returns no rows, no row of the table is in the
group with a different user. -/
theorem no_match_of_othersOf_nil (l : List Membership) (g u : Nat)
    (h : othersOf l g u = []) :
    ∀ m ∈ l, ¬(m.group_id = g ∧ m.user_id ≠ u) := by
  induction l with
  | nil => simp
  | cons m t ih =>
    by_cases hg : m.group_id = g
    · by_cases hu : m.user_id = u
      · have ht : othersOf t g u = [] := by
          rw [show othersOf (m :: t) g u = othersOf t g u by simp [othersOf, hg, hu]] at h
          exact h
        intro m' hm'
        rcases List.mem_cons.mp hm' with hm' | hm'
        · subst hm'
          exact fun hc => hc.2 hu
        · exact ih ht m' hm'
      · rw [show othersOf (m :: t) g u = m :: othersOf t g u by
            simp [othersOf, hg, hu]] at h
        exact absurd h (List.cons_ne_nil _ _)
    · have ht : othersOf t g u = [] := by
        rw [show othersOf (m :: t) g u = othersOf t g u by simp [othersOf, hg]] at h
        exact h
      intro m' hm'
      rcases List.mem_cons.mp hm' with hm' | hm'
      · subst hm'
        exact fun hc => hg hc.1
      · exact ih ht m' hm'

/-- `incFail` preserves the keys of every row, hence preserves the
"no other member" property. -/
theorem no_match_incFail (l : List Membership) (g u : Nat)
    (h : ∀ m ∈ l, ¬(m.group_id = g ∧ m.user_id ≠ u)) :
    ∀ m ∈ incFail l g u, ¬(m.group_id = g ∧ m.user_id ≠ u) := by
  induction l with
  | nil => simp [incFail]
  | cons m t ih =>
    have hm := h m (List.mem_cons_self m t)
    have ht : ∀ m' ∈ t, ¬(m'.group_id = g ∧ m'.user_id ≠ u) :=
      fun m' hm' => h m' (List.mem_cons_of_mem m hm')
    intro m' hm'
    rw [show incFail (m :: t) g u =
        (if m.group_id == g && m.user_id == u then
          { m with failure_count := m.failure_count + 1 }
        else m) :: incFail t g u from rfl] at hm'
    rcases List.mem_cons.mp hm' with hm' | hm'
    · subst hm'
      by_cases hc : (m.group_id == g && m.user_id == u) = true
      · simp only [hc, if_true]
        intro hx
        have : m.group_id = g ∧ m.user_id ≠ u := by simpa using hx
        exact hm this
      · simp only [hc, if_false]
        exact hm
    · exact ih ht m' hm'

/-! ### Claim theorems -/

/-- C7 (code_bug evidence): `settle_debt` on a transaction id that does
not exist returns `success := true` and changes nothing, instead of
failing with a NotFound error as the specification requires. -/
theorem C7_missing_transaction_reports_success (db : DB) (txid : Nat)
    (h : ∀ t ∈ db.transactions, t.id ≠ txid) :
    settle_debt db txid = (db, { success := true, error := none }) :=
  settle_debt_not_found db txid h

theorem C7_witness :
    settle_debt dbA 99 = (dbA, { success := true, error := none }) :=
  C7_missing_transaction_reports_success dbA 99 (by decide)

/-- C4: settling an already-paid transaction fails with the
"Already paid" error and changes no state, and settling the same pending
transaction twice in a row is rejected the second time with the state left
exactly as after the first settlement. -/
theorem C4_settle_idempotency_guard (db : DB) (txid : Nat) (tx : Transaction)
    (hfind : db.transactions.find? (fun t => t.id == txid) = some tx) :
    (tx.status = TxStatus.paid →
      settle_debt db txid = (db, { success := false, error := some "Already paid" })) ∧
    (tx.status = TxStatus.pending →
      settle_debt ((settle_debt db txid).1) txid =
        (((settle_debt db txid).1), { success := false, error := some "Already paid" })) := by
  constructor
  · intro hp
    exact settle_debt_paid db txid tx hfind hp
  · intro hp
    have h1 := settle_debt_pending db txid tx hfind hp
    have hfind2 := find?_map_paid db.transactions txid tx hfind
    have htx2 : ((settle_debt db txid).1).transactions.find?
        (fun t => t.id == txid) = some { tx with status := TxStatus.paid } := by
      rw [h1]
      exact hfind2
    exact settle_debt_paid _ txid _ htx2 rfl

theorem C4_witness :
    (settle_debt dbPaid 5 =
      (dbPaid, { success := false, error := some "Already paid" })) ∧
    (settle_debt ((settle_debt dbLeft 1).1) 1 =
      (((settle_debt dbLeft 1).1), { success := false, error := some "Already paid" })) :=
  ⟨(C4_settle_idempotency_guard dbPaid 5
      ⟨5, 1, 2, 3, 4, TxStatus.paid, none, none⟩ (by decide)).1 rfl,
   (C4_settle_idempotency_guard dbLeft 1
      ⟨1, 1, 9, 2, 3, TxStatus.pending, none, none⟩ (by decide)).2 rfl⟩

/-- C6 (code_bug evidence): `log_failure` (photo_proof_setup.sql) performs
no membership check.  User `1` is not a member of group `1` in
`dbNonMember`, yet the call succeeds, creates one transaction per member,
credits every member, and drives the group's balance sum from `0` to `10`. -/
theorem C6_nonmember_log_failure_not_rejected :
    countKey dbNonMember.group_members 1 1 = 0 ∧
    memSum dbNonMember.group_members 1 = 0 ∧
    (log_failure_photo dbNonMember 1 1 none none).toOption.map
        (fun p => (p.2.transactions_created, p.2.total_debt,
          memSum p.1.group_members 1, p.1.transactions.length)) =
      some (2, 10, 10, 2) := by
  refine ⟨by decide, by norm_num [dbNonMember, memSum], ?_⟩
  norm_num [dbNonMember, log_failure_photo, groupPenalty, othersOf, photoLoopStep,
    incFail, subBal, addBalOthers, memSum, Except.toOption]

/-- C2: distribution correctness of `log_failure`
(photo_proof_setup.sql): with penalty `P` and `n` other membership rows,
the call returns `transactions_created = n` and `total_debt = P * n`,
appends exactly `n` new transactions, each `from = u`, `amount = P`,
status pending; the actor's balance decreases by `P * n`; and every other
member's balance increases by exactly `P`. -/
theorem C2_distribution_correctness (db : DB) (g u : Nat)
    (desc pr : Option String) (P : ℚ)
    (hP : groupPenalty db g = some P)
    (hmem : countKey db.group_members g u = 1) :
    ∃ db2 : DB,
      log_failure_photo db g u desc pr =
        Except.ok (db2,
          { transactions_created := (othersOf db.group_members g u).length,
            total_debt := P * ((othersOf db.group_members g u).length : ℚ) }) ∧
      db2.transactions = db.transactions ++
        mkTxList g u P (some (desc.getD "Logged failure")) pr db.next_id
          ((othersOf db.group_members g u).map (fun m => m.user_id)) ∧
      (mkTxList g u P (some (desc.getD "Logged failure")) pr db.next_id
          ((othersOf db.group_members g u).map (fun m => m.user_id))).length =
        (othersOf db.group_members g u).length ∧
      (∀ tx ∈ mkTxList g u P (some (desc.getD "Logged failure")) pr db.next_id
          ((othersOf db.group_members g u).map (fun m => m.user_id)),
        tx.from_user_id = u ∧ tx.amount = P ∧ tx.status = TxStatus.pending) ∧
      balSum db2.group_members g u = balSum db.group_members g u -
        P * ((othersOf db.group_members g u).length : ℚ) ∧
      (∀ v, v ≠ u → countKey db.group_members g v = 1 →
        balSum db2.group_members g v = balSum db.group_members g v + P) := by
  refine ⟨_, log_failure_photo_eq db g u desc pr P hP, rfl, ?_, ?_, ?_, ?_⟩
  · simp [mkTxList_length]
  · intro tx htx
    have h := mem_mkTxList _ _ _ _ _ _ _ _ htx
    exact ⟨h.2.1, h.2.2.1, h.2.2.2.1⟩
  · rw [balSum_addBalOthers_self, balSum_subBal_self, balSum_incFail,
      countKey_incFail, hmem]
    push_cast
    ring
  · intro v hv hck
    rw [balSum_addBalOthers_ne _ _ _ _ _ hv, balSum_subBal_ne _ _ _ _ _ hv,
      balSum_incFail, countKey_subBal, countKey_incFail, hck]
    push_cast
    ring

theorem C2_witness :
    ∃ db2 : DB,
      log_failure_photo dbA 1 1 none none =
        Except.ok (db2,
          { transactions_created := (othersOf dbA.group_members 1 1).length,
            total_debt := 2 * ((othersOf dbA.group_members 1 1).length : ℚ) }) ∧
      db2.transactions = dbA.transactions ++
        mkTxList 1 1 2 (some ((none : Option String).getD "Logged failure")) none
          dbA.next_id ((othersOf dbA.group_members 1 1).map (fun m => m.user_id)) ∧
      (mkTxList 1 1 2 (some ((none : Option String).getD "Logged failure")) none
          dbA.next_id ((othersOf dbA.group_members 1 1).map (fun m => m.user_id))).length =
        (othersOf dbA.group_members 1 1).length ∧
      (∀ tx ∈ mkTxList 1 1 2 (some ((none : Option String).getD "Logged failure")) none
          dbA.next_id ((othersOf dbA.group_members 1 1).map (fun m => m.user_id)),
        tx.from_user_id = 1 ∧ tx.amount = 2 ∧ tx.status = TxStatus.pending) ∧
      balSum db2.group_members 1 1 = balSum dbA.group_members 1 1 -
        2 * ((othersOf dbA.group_members 1 1).length : ℚ) ∧
      (∀ v, v ≠ 1 → countKey dbA.group_members 1 v = 1 →
        balSum db2.group_members 1 v = balSum dbA.group_members 1 v + 2) :=
  C2_distribution_correctness dbA 1 1 none none 2 (by decide) (by decide)

/-- C5: `log_failure` (photo_proof_setup.sql) on a group whose only
member is the actor: the call succeeds with zero transactions and zero
total debt, the transaction table is unchanged, every balance is
unchanged, and the actor's `failure_count` increases by one. -/
theorem C5_sole_member (db : DB) (g u : Nat) (desc pr : Option String) (P : ℚ)
    (hP : groupPenalty db g = some P)
    (h0 : othersOf db.group_members g u = [])
    (hmem : countKey db.group_members g u = 1) :
    log_failure_photo db g u desc pr =
      Except.ok ({ db with group_members := incFail db.group_members g u },
        { transactions_created := 0, total_debt := 0 }) ∧
    (incFail db.group_members g u).map (fun m => m.current_balance) =
      db.group_members.map (fun m => m.current_balance) ∧
    fcSum (incFail db.group_members g u) g u = fcSum db.group_members g u + 1 := by
  refine ⟨?_, balances_incFail db.group_members g u, ?_⟩
  · have h := log_failure_photo_eq db g u desc pr P hP
    rw [h0] at h
    simp only [List.length_nil, Nat.cast_zero, mul_zero, List.map_nil,
      mkTxList, List.append_nil, Nat.add_zero] at h
    rw [subBal_zero] at h
    rw [addBalOthers_of_no_match _ _ _ _
      (no_match_incFail db.group_members g u
        (no_match_of_othersOf_nil db.group_members g u h0))] at h
    exact h
  · rw [fcSum_incFail_self, hmem]

theorem C5_witness :
    log_failure_photo dbSolo 1 1 none none =
      Except.ok ({ dbSolo with group_members := incFail dbSolo.group_members 1 1 },
        { transactions_created := 0, total_debt := 0 }) ∧
    (incFail dbSolo.group_members 1 1).map (fun m => m.current_balance) =
      dbSolo.group_members.map (fun m => m.current_balance) ∧
    fcSum (incFail dbSolo.group_members 1 1) 1 1 = fcSum dbSolo.group_members 1 1 + 1 :=
  C5_sole_member dbSolo 1 1 none none 3 (by decide) (by decide) (by decide)

/-- C1 (amended): the zero-sum invariant is preserved by every
`log_failure` (photo_proof_setup.sql) call by a current member, and by
every `settle_debt` call on a transaction **whose payer and payee are both
current members of the group** (one membership row each, per the schema's
`UNIQUE(group_id, user_id)` constraint).  The membership condition on
`settle_debt` is necessary: see the counterexample. -/
theorem C1_zero_sum_preservation :
    (∀ (db : DB) (g u : Nat) (desc pr : Option String) (P : ℚ)
        (db2 : DB) (r : LogResult),
      groupPenalty db g = some P →
      countKey db.group_members g u = 1 →
      log_failure_photo db g u desc pr = Except.ok (db2, r) →
      memSum db2.group_members g = memSum db.group_members g) ∧
    (∀ (db : DB) (txid : Nat) (tx : Transaction),
      db.transactions.find? (fun t => t.id == txid) = some tx →
      countKey db.group_members tx.group_id tx.from_user_id = 1 →
      countKey db.group_members tx.group_id tx.to_user_id = 1 →
      memSum ((settle_debt db txid).1).group_members tx.group_id =
        memSum db.group_members tx.group_id) := by
  constructor
  · intro db g u desc pr P db2 r hP hmem hlog
    rw [log_failure_photo_eq db g u desc pr P hP] at hlog
    simp only [Except.ok.injEq, Prod.mk.injEq] at hlog
    obtain ⟨h1, _⟩ := hlog
    have hgm : db2.group_members =
        addBalOthers
          (subBal (incFail db.group_members g u) g u
            (P * ((othersOf db.group_members g u).length : ℚ)))
          g u P := by
      rw [← h1]
    rw [hgm, memSum_addBalOthers, memSum_subBal, memSum_incFail,
      countKey_incFail, hmem, countOthers_subBal, countOthers_incFail,
      ← length_othersOf]
    push_cast
    ring
  · intro db txid tx hfind hf ht
    cases hs : tx.status with
    | paid =>
      rw [settle_debt_paid db txid tx hfind hs]
    | pending =>
      rw [settle_debt_pending db txid tx hfind hs]
      show memSum
        (subBal (addBal db.group_members tx.group_id tx.from_user_id tx.amount)
          tx.group_id tx.to_user_id tx.amount) tx.group_id =
        memSum db.group_members tx.group_id
      rw [memSum_subBal, memSum_addBal, countKey_addBal, hf, ht]
      push_cast
      ring

/-- C1 (counterexample to the claim as stated): `dbLeft` is a zero-sum
state of group `1`, transaction `1` belongs to group `1`, yet settling it
leaves the group's balance sum at `-3`: the payer (user `9`) has no
membership row, so the payer-side credit updates nothing while the
payee-side debit goes through. -/
theorem C1_counterexample :
    memSum dbLeft.group_members 1 = 0 ∧
    dbLeft.transactions.find? (fun t => t.id == 1) =
      some ⟨1, 1, 9, 2, 3, TxStatus.pending, none, none⟩ ∧
    memSum ((settle_debt dbLeft 1).1).group_members 1 = -3 := by
  refine ⟨by norm_num [dbLeft, memSum], by decide, ?_⟩
  norm_num [dbLeft, settle_debt, List.find?, addBal, subBal, memSum]

theorem C1_witness :
    memSum dbSoloAfter.group_members 1 = memSum dbSolo.group_members 1 ∧
    memSum ((settle_debt dbPend 7).1).group_members 1 =
      memSum dbPend.group_members 1 :=
  ⟨C1_zero_sum_preservation.1 dbSolo 1 1 none none 3 dbSoloAfter
      { transactions_created := 0, total_debt := 0 }
      (by decide) (by decide)
      (by norm_num [dbSolo, dbSoloAfter, log_failure_photo, groupPenalty,
        othersOf, photoLoopStep, incFail, subBal, addBalOthers]),
   C1_zero_sum_preservation.2 dbPend 7
      ⟨7, 1, 1, 2, 2, TxStatus.pending, none, none⟩
      (by decide) (by decide) (by decide)⟩

/-- C3 (amended): for a transaction `tx` created by a distribution with
`n` other members, one `settle_debt(tx)` call returns the **payee's**
balance to its pre-distribution value, while the payer's balance becomes
its pre-distribution value `- P * n + P`; the payer is therefore restored
by a single settlement exactly in the case `n = 1`. -/
theorem C3_settlement_roundtrip (db : DB) (g u : Nat)
    (desc pr : Option String) (P : ℚ) (db2 : DB) (r : LogResult)
    (txid : Nat) (tx : Transaction)
    (hP : groupPenalty db g = some P)
    (hmem : countKey db.group_members g u = 1)
    (hlog : log_failure_photo db g u desc pr = Except.ok (db2, r))
    (hfind : db2.transactions.find? (fun t => t.id == txid) = some tx)
    (hnew : tx ∉ db.transactions) :
    balSum ((settle_debt db2 txid).1).group_members g tx.to_user_id =
      balSum db.group_members g tx.to_user_id ∧
    balSum ((settle_debt db2 txid).1).group_members g u =
      balSum db.group_members g u -
        P * ((othersOf db.group_members g u).length : ℚ) + P ∧
    ((othersOf db.group_members g u).length = 1 →
      balSum ((settle_debt db2 txid).1).group_members g u =
        balSum db.group_members g u) := by
  rw [log_failure_photo_eq db g u desc pr P hP] at hlog
  simp only [Except.ok.injEq, Prod.mk.injEq] at hlog
  obtain ⟨h1, _⟩ := hlog
  have hgm : db2.group_members =
      addBalOthers
        (subBal (incFail db.group_members g u) g u
          (P * ((othersOf db.group_members g u).length : ℚ)))
        g u P := by
    rw [← h1]
  have htxs : db2.transactions = db.transactions ++
      mkTxList g u P (some (desc.getD "Logged failure")) pr db.next_id
        ((othersOf db.group_members g u).map (fun m => m.user_id)) := by
    rw [← h1]
  have htx_mem : tx ∈ db2.transactions := List.mem_of_find?_eq_some hfind
  rw [htxs] at htx_mem
  rcases List.mem_append.mp htx_mem with hold | hnewm
  · exact absurd hold hnew
  obtain ⟨hgid, hfrom, hamt, hstat, hto⟩ := mem_mkTxList _ _ _ _ _ _ _ _ hnewm
  obtain ⟨rm, hrm, hrmu⟩ := List.mem_map.mp hto
  have hto_ne : tx.to_user_id ≠ u := hrmu ▸ (mem_othersOf _ _ _ _ hrm).2
  have hu_ne : u ≠ tx.to_user_id := fun h => hto_ne h.symm
  have hset := settle_debt_pending db2 txid tx hfind hstat
  rw [hset]
  show balSum
      (subBal (addBal db2.group_members tx.group_id tx.from_user_id tx.amount)
        tx.group_id tx.to_user_id tx.amount) g tx.to_user_id =
      balSum db.group_members g tx.to_user_id ∧ _
  rw [hgid, hfrom, hamt, hgm]
  have hto_bal :
      balSum
        (subBal (addBal
          (addBalOthers
            (subBal (incFail db.group_members g u) g u
              (P * ((othersOf db.group_members g u).length : ℚ)))
            g u P) g u P) g tx.to_user_id P) g tx.to_user_id =
      balSum db.group_members g tx.to_user_id := by
    rw [balSum_subBal_self, balSum_addBal_ne _ _ _ _ _ hto_ne,
      balSum_addBalOthers_ne _ _ _ _ _ hto_ne,
      balSum_subBal_ne _ _ _ _ _ hto_ne, balSum_incFail,
      countKey_addBal, countKey_addBalOthers, countKey_subBal, countKey_incFail]
    ring
  have hu_bal :
      balSum
        (subBal (addBal
          (addBalOthers
            (subBal (incFail db.group_members g u) g u
              (P * ((othersOf db.group_members g u).length : ℚ)))
            g u P) g u P) g tx.to_user_id P) g u =
      balSum db.group_members g u -
        P * ((othersOf db.group_members g u).length : ℚ) + P := by
    rw [balSum_subBal_ne _ _ _ _ _ hu_ne, balSum_addBal_self,
      balSum_addBalOthers_self, balSum_subBal_self, balSum_incFail,
      countKey_addBalOthers, countKey_subBal, countKey_incFail, hmem]
    push_cast
    ring
  refine ⟨hto_bal, hu_bal, ?_⟩
  intro hlen
  rw [hu_bal, hlen]
  norm_num

/-- C3 (counterexample to the claim as stated): in the spec's concrete
scenario (`dbA`, penalty `2`, three members), member `1` logs a failure
(balance `0 → -4`); transaction `10` was created by that distribution,
and settling it once brings member `1` back only to `-2`, not to the
pre-distribution value `0`. -/
theorem C3_counterexample :
    balSum dbA.group_members 1 1 = 0 ∧
    (log_failure_photo dbA 1 1 none none).toOption.map
        (fun p => (p.1.transactions.find? (fun t => t.id == 10),
          balSum ((settle_debt p.1 10).1).group_members 1 1)) =
      some (some ⟨10, 1, 1, 2, 2, TxStatus.pending, some "Logged failure", none⟩,
        -2) := by
  constructor
  · norm_num [dbA, balSum]
  · norm_num [dbA, log_failure_photo, groupPenalty, othersOf, photoLoopStep,
      incFail, subBal, addBalOthers, settle_debt, List.find?, addBal, balSum,
      Except.toOption]

theorem C3_witness :
    balSum ((settle_debt dbAAfter 10).1).group_members 1 2 =
      balSum dbA.group_members 1 2 ∧
    balSum ((settle_debt dbAAfter 10).1).group_members 1 1 =
      balSum dbA.group_members 1 1 -
        2 * ((othersOf dbA.group_members 1 1).length : ℚ) + 2 ∧
    ((othersOf dbA.group_members 1 1).length = 1 →
      balSum ((settle_debt dbAAfter 10).1).group_members 1 1 =
        balSum dbA.group_members 1 1) :=
  C3_settlement_roundtrip dbA 1 1 none none 2 dbAAfter
    { transactions_created := 2, total_debt := 4 } 10
    ⟨10, 1, 1, 2, 2, TxStatus.pending, some "Logged failure", none⟩
    (by decide) (by decide)
    (by norm_num [dbA, dbAAfter, log_failure_photo, groupPenalty, othersOf,
      photoLoopStep, incFail, subBal, addBalOthers])
    (by decide) (by decide)

/-- If no row of `l` has key `(g, v)`, the key count is `0`. -/
theorem countKey_eq_zero (l : List Membership) (g v : Nat)
    (h : ∀ m ∈ l, ¬(m.group_id = g ∧ m.user_id = v)) :
    countKey l g v = 0 := by
  induction l with
  | nil => simp [countKey]
  | cons m t ih =>
    have hm := h m (List.mem_cons_self m t)
    have ht : ∀ m' ∈ t, ¬(m'.group_id = g ∧ m'.user_id = v) :=
      fun m' hm' => h m' (List.mem_cons_of_mem m hm')
    by_cases hg : m.group_id = g
    · have hv : ¬ m.user_id = v := fun hv => hm ⟨hg, hv⟩
      simp [countKey, hg, hv, ih ht]
    · simp [countKey, hg, ih ht]

/-- The schema's `UNIQUE(group_id, user_id)` constraint, as pairwise
distinctness of membership keys, bounds every key count by one. -/
theorem countKey_le_one_of_pairwise (l : List Membership)
    (hup : l.Pairwise (fun m1 m2 => ¬(m1.group_id = m2.group_id ∧ m1.user_id = m2.user_id)))
    (g v : Nat) : countKey l g v ≤ 1 := by
  induction l with
  | nil => simp [countKey]
  | cons m t ih =>
    rcases List.pairwise_cons.mp hup with ⟨hm, ht⟩
    by_cases hg : m.group_id = g
    · by_cases hv : m.user_id = v
      · have hzero : countKey t g v = 0 := by
          apply countKey_eq_zero
          intro m' hm' hc
          exact hm m' hm' ⟨hg.trans hc.1.symm, hv.trans hc.2.symm⟩
        simp [countKey, hg, hv, hzero]
      · simpa [countKey, hg, hv] using ih ht
    · simpa [countKey, hg] using ih ht

/-- C10 (amended): under the `UNIQUE(group_id, user_id)` constraint, the
two-argument `log_failure` (full_setup.sql) and the three-argument
`log_failure` (photo_proof_setup.sql) return the same result object,
append transaction batches with the same ledger content (same group,
payer, payee, amount and status per transaction), and apply the same
`+P` credit to every other member — but they are **not** equivalent on the
acting member's balance: the two-argument version debits the actor `P`
once, the three-argument version debits `P * n`; they agree exactly when
`P * (n - 1) = 0`. -/
theorem C10_variant_comparison (db : DB) (g u : Nat)
    (desc pr : Option String) (P : ℚ)
    (hP : groupPenalty db g = some P)
    (hmem : countKey db.group_members g u = 1)
    (hup : db.group_members.Pairwise
      (fun m1 m2 => ¬(m1.group_id = m2.group_id ∧ m1.user_id = m2.user_id))) :
    ∃ (dbF : DB) (resF : LogResult) (dbP : DB) (resP : LogResult),
      log_failure_full db g u desc = Except.ok (dbF, resF) ∧
      log_failure_photo db g u desc pr = Except.ok (dbP, resP) ∧
      resF = resP ∧
      dbF.transactions.map projTx = dbP.transactions.map projTx ∧
      (∀ v, v ≠ u →
        balSum dbF.group_members g v = balSum dbP.group_members g v) ∧
      balSum dbF.group_members g u = balSum db.group_members g u - P ∧
      balSum dbP.group_members g u = balSum db.group_members g u -
        P * ((othersOf db.group_members g u).length : ℚ) := by
  have huniq : ∀ v, countKey db.group_members g v ≤ 1 :=
    countKey_le_one_of_pairwise db.group_members hup g
  refine ⟨_, _, _, _, log_failure_full_eq db g u desc P hP,
    log_failure_photo_eq db g u desc pr P hP, ?_, ?_, ?_, ?_, ?_⟩
  · simp [length_othersOf_incFailSubBal]
  · show (db.transactions ++
        mkTxList g u P desc none db.next_id
          ((othersOf (incFailSubBal db.group_members g u P) g u).map
            (fun m => m.user_id))).map projTx =
      (db.transactions ++
        mkTxList g u P (some (desc.getD "Logged failure")) pr db.next_id
          ((othersOf db.group_members g u).map (fun m => m.user_id))).map projTx
    rw [othersOf_incFailSubBal]
    simp only [List.map_append]
    rw [mkTxList_map_projTx g u P desc none (some (desc.getD "Logged failure")) pr
      db.next_id db.next_id]
  · intro v hv
    show balSum
        (creditAll (incFailSubBal db.group_members g u P) g P
          ((othersOf (incFailSubBal db.group_members g u P) g u).map
            (fun m => m.user_id))) g v =
      balSum
        (addBalOthers
          (subBal (incFail db.group_members g u) g u
            (P * ((othersOf db.group_members g u).length : ℚ)))
          g u P) g v
    rw [othersOf_incFailSubBal, balSum_creditAll, countKey_incFailSubBal,
      balSum_incFailSubBal_ne _ _ _ _ _ hv, count_user_othersOf _ _ _ _ hv,
      balSum_addBalOthers_ne _ _ _ _ _ hv, balSum_subBal_ne _ _ _ _ _ hv,
      balSum_incFail, countKey_subBal, countKey_incFail]
    rcases Nat.le_one_iff_eq_zero_or_eq_one.mp (huniq v) with h0 | h1
    · rw [h0]
      norm_num
    · rw [h1]
      norm_num
  · show balSum
        (creditAll (incFailSubBal db.group_members g u P) g P
          ((othersOf (incFailSubBal db.group_members g u P) g u).map
            (fun m => m.user_id))) g u =
      balSum db.group_members g u - P
    have hnu : u ∉ (othersOf db.group_members g u).map (fun m => m.user_id) := by
      intro hmem'
      obtain ⟨m, hm, hmu⟩ := List.mem_map.mp hmem'
      exact (mem_othersOf _ _ _ _ hm).2 hmu
    rw [othersOf_incFailSubBal, balSum_creditAll, countKey_incFailSubBal,
      balSum_incFailSubBal_self, hmem, List.count_eq_zero_of_not_mem hnu]
    push_cast
    ring
  · show balSum
        (addBalOthers
          (subBal (incFail db.group_members g u) g u
            (P * ((othersOf db.group_members g u).length : ℚ)))
          g u P) g u =
      balSum db.group_members g u -
        P * ((othersOf db.group_members g u).length : ℚ)
    rw [balSum_addBalOthers_self, balSum_subBal_self, balSum_incFail,
      countKey_incFail, hmem]
    push_cast
    ring

theorem C10_witness :
    ∃ (dbF : DB) (resF : LogResult) (dbP : DB) (resP : LogResult),
      log_failure_full dbA 1 1 none = Except.ok (dbF, resF) ∧
      log_failure_photo dbA 1 1 none none = Except.ok (dbP, resP) ∧
      resF = resP ∧
      dbF.transactions.map projTx = dbP.transactions.map projTx ∧
      (∀ v, v ≠ 1 →
        balSum dbF.group_members 1 v = balSum dbP.group_members 1 v) ∧
      balSum dbF.group_members 1 1 = balSum dbA.group_members 1 1 - 2 ∧
      balSum dbP.group_members 1 1 = balSum dbA.group_members 1 1 -
        2 * ((othersOf dbA.group_members 1 1).length : ℚ) :=
  C10_variant_comparison dbA 1 1 none none 2 (by decide) (by decide) (by decide)

/-- C10 (counterexample to the claim as stated): on the spec's concrete
scenario (`dbA`: penalty `2`, members `1, 2, 3`, all balances `0`), the
two `log_failure` variants leave the acting member `1` at balance `-2`
and `-4` respectively — the balance change of the acting member differs,
so the two functions are not equivalent as ledger operations. -/
theorem C10_counterexample :
    (log_failure_full dbA 1 1 none).toOption.map
        (fun p => balSum p.1.group_members 1 1) = some (-2) ∧
    (log_failure_photo dbA 1 1 none none).toOption.map
        (fun p => balSum p.1.group_members 1 1) = some (-4) ∧
    balSum dbA.group_members 1 1 = 0 := by
  refine ⟨?_, ?_, by norm_num [dbA, balSum]⟩
  · norm_num [dbA, log_failure_full, groupPenalty, othersOf, fullLoopStep,
      incFailSubBal, addBal, balSum, Except.toOption]
  · norm_num [dbA, log_failure_photo, groupPenalty, othersOf, photoLoopStep,
      incFail, subBal, addBalOthers, balSum, Except.toOption]

/-- C8: `getGoalStatus` with a most recent completion at `T` reports
`next_deadline = T + frequency_days` days, `is_overdue ↔ next_deadline <
now`, and `days_remaining = ⌈(next_deadline - now) in days⌉`; in
particular for `frequency_days = 3`, evaluation at `T + 2` days gives
`is_overdue = false, days_remaining = 1` and at `T + 4` days gives
`is_overdue = true, days_remaining = -1`.  The hypotheses say the user's
completion list (ordered by `completed_at` descending, as fetched) starts
with a completion at `T` that is the most recent one. -/
theorem C8_goal_status_determinism (goal : Goal)
    (completions : List GoalCompletion) (uid : Nat) (now T : Int)
    (c0 : GoalCompletion)
    (hhead : (completions.filter (fun c => c.user_id == uid)).head? = some c0)
    (hT : c0.completed_at = T)
    (_hmax : ∀ c ∈ completions.filter (fun c => c.user_id == uid),
      c.completed_at ≤ T) :
    (getGoalStatus goal completions uid now).next_deadline =
      T + (goal.frequency_days : Int) * dayMs ∧
    (getGoalStatus goal completions uid now).is_overdue =
      decide (T + (goal.frequency_days : Int) * dayMs < now) ∧
    (getGoalStatus goal completions uid now).days_remaining =
      ⌈((T + (goal.frequency_days : Int) * dayMs - now : Int) : ℚ) /
        ((dayMs : Int) : ℚ)⌉ ∧
    (goal.frequency_days = 3 →
      (getGoalStatus goal completions uid (T + 2 * dayMs)).is_overdue = false ∧
      (getGoalStatus goal completions uid (T + 2 * dayMs)).days_remaining = 1 ∧
      (getGoalStatus goal completions uid (T + 4 * dayMs)).is_overdue = true ∧
      (getGoalStatus goal completions uid (T + 4 * dayMs)).days_remaining = -1) := by
  have hstat : ∀ now' : Int, getGoalStatus goal completions uid now' =
      { last_completion := some T,
        next_deadline := T + (goal.frequency_days : Int) * dayMs,
        is_overdue := decide (T + (goal.frequency_days : Int) * dayMs < now'),
        days_remaining :=
          ceilDiv (T + (goal.frequency_days : Int) * dayMs - now') dayMs,
        total_completions :=
          (completions.filter (fun c => c.user_id == uid)).length } := by
    intro now'
    rw [getGoalStatus]
    rw [hhead]
    show ({ last_completion := some c0.completed_at,
              next_deadline := c0.completed_at + (goal.frequency_days : Int) * dayMs,
              is_overdue :=
                decide (c0.completed_at + (goal.frequency_days : Int) * dayMs < now'),
              days_remaining :=
                ceilDiv (c0.completed_at + (goal.frequency_days : Int) * dayMs - now')
                  dayMs,
              total_completions :=
                (completions.filter (fun c => c.user_id == uid)).length } :
        GoalStatus) = _
    rw [hT]
  refine ⟨?_, ?_, ?_, ?_⟩
  · rw [hstat now]
  · rw [hstat now]
  · rw [hstat now]
    exact ceilDiv_eq_ceil _
  · intro hd
    rw [hstat (T + 2 * dayMs), hstat (T + 4 * dayMs), hd]
    refine ⟨?_, ?_, ?_, ?_⟩
    · rw [decide_eq_false_iff_not]
      rw [show ((3 : Nat) : Int) = 3 from rfl]
      unfold dayMs
      omega
    · rw [show T + ((3 : Nat) : Int) * dayMs - (T + 2 * dayMs) = 1 * dayMs by
        push_cast
        ring]
      exact ceilDiv_mul_dayMs 1
    · rw [decide_eq_true_iff]
      rw [show ((3 : Nat) : Int) = 3 from rfl]
      unfold dayMs
      omega
    · rw [show T + ((3 : Nat) : Int) * dayMs - (T + 4 * dayMs) = (-1) * dayMs by
        push_cast
        ring]
      exact ceilDiv_mul_dayMs (-1)

theorem C8_witness :
    (getGoalStatus ⟨1, 3⟩ [⟨5, 1000⟩] 5 (1000 + 2 * dayMs)).is_overdue = false ∧
    (getGoalStatus ⟨1, 3⟩ [⟨5, 1000⟩] 5 (1000 + 2 * dayMs)).days_remaining = 1 ∧
    (getGoalStatus ⟨1, 3⟩ [⟨5, 1000⟩] 5 (1000 + 4 * dayMs)).is_overdue = true ∧
    (getGoalStatus ⟨1, 3⟩ [⟨5, 1000⟩] 5 (1000 + 4 * dayMs)).days_remaining = -1 :=
  (C8_goal_status_determinism ⟨1, 3⟩ [⟨5, 1000⟩] 5 0 1000 ⟨5, 1000⟩
    (by decide) rfl (by decide)).2.2.2 rfl

/-- C9: `getGoalStatus` for a user with no completion of the goal anchors
the deadline at the evaluation instant: it always returns
`next_deadline = now + frequency_days` days, `is_overdue = false` and
`days_remaining = frequency_days`, on every evaluation — a never-completed
goal is never reported overdue. -/
theorem C9_never_completed_never_overdue (goal : Goal)
    (completions : List GoalCompletion) (uid : Nat) (now : Int)
    (h : ∀ c ∈ completions, c.user_id ≠ uid) :
    getGoalStatus goal completions uid now =
      { last_completion := none,
        next_deadline := now + (goal.frequency_days : Int) * dayMs,
        is_overdue := false,
        days_remaining := (goal.frequency_days : Int),
        total_completions := 0 } := by
  have hfil : completions.filter (fun c => c.user_id == uid) = [] := by
    rw [List.filter_eq_nil_iff]
    intro c hc
    simpa using h c hc
  have hnn : 0 ≤ (goal.frequency_days : Int) * dayMs := by
    have h1 : (0 : Int) ≤ (goal.frequency_days : Int) := Int.natCast_nonneg _
    have h2 : (0 : Int) ≤ dayMs := by norm_num [dayMs]
    exact mul_nonneg h1 h2
  have hov : decide (now + (goal.frequency_days : Int) * dayMs < now) = false := by
    rw [decide_eq_false_iff_not]
    omega
  have hdays : ceilDiv (now + (goal.frequency_days : Int) * dayMs - now) dayMs =
      (goal.frequency_days : Int) := by
    rw [show now + (goal.frequency_days : Int) * dayMs - now =
        (goal.frequency_days : Int) * dayMs by ring]
    exact ceilDiv_mul_dayMs _
  rw [getGoalStatus]
  rw [hfil]
  show ({ last_completion := none,
            next_deadline := now + (goal.frequency_days : Int) * dayMs,
            is_overdue := decide (now + (goal.frequency_days : Int) * dayMs < now),
            days_remaining :=
              ceilDiv (now + (goal.frequency_days : Int) * dayMs - now) dayMs,
            total_completions := ([] : List GoalCompletion).length } :
      GoalStatus) = _
  rw [hov, hdays]
  rfl

theorem C9_witness :
    getGoalStatus ⟨2, 5⟩ [⟨3, 700⟩] 7 123 =
      { last_completion := none,
        next_deadline := 123 + ((5 : Nat) : Int) * dayMs,
        is_overdue := false,
        days_remaining := ((5 : Nat) : Int),
        total_completions := 0 } :=
  C9_never_completed_never_overdue ⟨2, 5⟩ [⟨3, 700⟩] 7 123 (by decide)

end Accountability
